import Mathlib

/-!
Verification of the scheduled-output engine of `src/video_display/decklink.cpp`
(UltraGrid DeckLink display): the bounded look-ahead scheduling queue
(`PlaybackDelegate::EnqueueFrame` / `PlaybackDelegate::ScheduleNextFrame`), the
audio/video synchronisation anchor (`PlaybackDelegate::ScheduleAudio`), the
frame-buffer pool (`DeckLinkFrame::AddRef` / `DeckLinkFrame::Release` and the
pool scan in `display_decklink_getf`), and the session pre-fill in
`display_decklink_reconfigure`.

Machine integers are modelled as `Int`/`Nat` with explicit reduction mod `2^w`
where the source's conversions wrap (the `uint32_t` cast of the anchor, the
`ULONG` reference counter); C `/` on `int64_t` is `Int.tdiv` (truncation toward
zero).
-/

namespace Decklink

/-! ### Constants (decklink.cpp lines 89-94 and 127-134) -/

def SCHED_RANGE : Nat := 2

def DEFAULT_MIN_SCHED_FRAMES : Nat := 4

def DEFAULT_MAX_SCHED_FRAMES : Nat := DEFAULT_MIN_SCHED_FRAMES + SCHED_RANGE

def MAX_UNPROC_QUEUE_SIZE : Nat := 10

def INT64_MIN : Int := -(2 ^ 63)

namespace audio_sync_val

/-- `audio_sync_val::deinit = INT64_MIN` (decklink.cpp:132). -/
def deinit : Int := INT64_MIN

/-- `audio_sync_val::resync = INT64_MIN + 1` (decklink.cpp:133). -/
def resync : Int := INT64_MIN + 1

end audio_sync_val

/-- The C conversion `(uint32_t) x` of an `int64_t` value: reduction mod `2^32`
(`Int.emod` is non-negative for a positive modulus, as the conversion is). -/
def toUInt32 (x : Int) : Int := x % 2 ^ 32

/-! ### Frames and the scheduler state -/

/-- A `DeckLinkFrame` as the scheduler sees it: an identity and the public
`timestamp` field (decklink.cpp:363, default `INT64_MIN`). -/
structure Frame where
  id : Nat
  timestamp : Int := INT64_MIN
deriving DecidableEq

/-- The scheduling state of `PlaybackDelegate` (decklink.cpp:146-158):
the FIFO `schedFrames` (front of the C++ `queue` = head of the list),
`lastSchedFrame`, the slot counter `schedSeq`, the atomic anchor
`m_audio_sync_ts` and the look-ahead bounds and frame-rate parameters. -/
structure PlaybackDelegate where
  schedFrames : List Frame
  lastSchedFrame : Option Frame
  schedSeq : Int
  m_audio_sync_ts : Int
  m_min_sched_frames : Nat
  m_max_sched_frames : Nat
  frameRateDuration : Int
  frameRateScale : Int
deriving DecidableEq

/-- Outcome of `PlaybackDelegate::EnqueueFrame`: the new delegate state, the
returned `bool`, and the frame passed to `Release()` on overflow (if any). -/
structure EnqueueResult where
  delegate : PlaybackDelegate
  ok : Bool
  released : Option Frame
deriving DecidableEq

/-- `PlaybackDelegate::EnqueueFrame` (decklink.cpp:397-412): under the lock,
push and return `true` when fewer than `MAX_UNPROC_QUEUE_SIZE` frames are
buffered; otherwise `Release()` the frame, set `m_audio_sync_ts` to
`audio_sync_val::resync` and return `false`. -/
def EnqueueFrame (d : PlaybackDelegate) (f : Frame) : EnqueueResult :=
  if d.schedFrames.length < MAX_UNPROC_QUEUE_SIZE then
    ⟨{ d with schedFrames := d.schedFrames ++ [f] }, true, none⟩
  else
    ⟨{ d with m_audio_sync_ts := audio_sync_val.resync }, false, some f⟩

/-- The anchor expression of decklink.cpp:448-450,
`(uint32_t)(f->timestamp - frameRateDuration * schedSeq * 90000 / frameRateScale)`:
left-associated products, C truncating division last, then the `uint32_t`
conversion. -/
def anchorValue (timestamp dur seq scale : Int) : Int :=
  toUInt32 (timestamp - Int.tdiv (dur * seq * 90000) scale)

/-- Mutable state threaded through the drain loop of
`PlaybackDelegate::ScheduleNextFrame` (decklink.cpp:433-456): the buffered
count `i`, `schedSeq`, `m_audio_sync_ts`, `lastSchedFrame`, and the emitted
`ScheduleVideoFrame` calls (frame, displayTime) and `Release()`d (dismissed)
frames. -/
structure DrainState where
  i : Nat
  schedSeq : Int
  syncTs : Int
  last : Option Frame
  scheduled : List (Frame × Int)
  dismissed : List Frame
deriving DecidableEq

/-- The `while (!schedFrames.empty())` loop of decklink.cpp:433-456.
Each dequeued frame: `++i`; if `i > m_max_sched_frames` the frame is released
(dismissed); else it becomes `lastSchedFrame`, may publish a new anchor when
`m_audio_sync_ts <= resync` and the timestamp is valid, and is submitted at
display time `schedSeq * frameRateDuration` before `schedSeq += 1`. -/
def drain (maxF : Nat) (dur scale : Int) (st : DrainState) : List Frame → DrainState
  | [] => st
  | f :: q =>
      if maxF < st.i + 1 then
        drain maxF dur scale
          { st with i := st.i + 1, dismissed := st.dismissed ++ [f] } q
      else
        drain maxF dur scale
          { i := st.i + 1
            schedSeq := st.schedSeq + 1
            syncTs :=
              if st.syncTs ≤ audio_sync_val.resync ∧ f.timestamp ≠ INT64_MIN then
                anchorValue f.timestamp dur st.schedSeq scale
              else st.syncTs
            last := some f
            scheduled := st.scheduled ++ [(f, st.schedSeq * dur)]
            dismissed := st.dismissed } q

/-- Outcome of `PlaybackDelegate::ScheduleNextFrame`: the new delegate state,
the `ScheduleVideoFrame` calls of the drain loop, the re-submission of the
empty-queue branch (decklink.cpp:427-429) if taken, the dismissed frames and
the number of "Missing frame" warnings. -/
structure SchedResult where
  delegate : PlaybackDelegate
  scheduled : List (Frame × Int)
  resubmitted : Option (Option Frame × Int)
  dismissed : List Frame
  missing : Nat
deriving DecidableEq

/-- `PlaybackDelegate::ScheduleNextFrame` (decklink.cpp:414-457), with `b` the
device's `GetBufferedVideoFrameCount` answer. Empty queue: return when
`b >= m_min_sched_frames`, otherwise warn, set the anchor to `resync`,
re-submit `lastSchedFrame` at `schedSeq * frameRateDuration` and `schedSeq += 1`.
Non-empty queue: run the drain loop. -/
def ScheduleNextFrame (d : PlaybackDelegate) (b : Nat) : SchedResult :=
  if d.schedFrames.isEmpty then
    if d.m_min_sched_frames ≤ b then
      ⟨d, [], none, [], 0⟩
    else
      ⟨{ d with m_audio_sync_ts := audio_sync_val.resync, schedSeq := d.schedSeq + 1 },
       [], some (d.lastSchedFrame, d.schedSeq * d.frameRateDuration), [], 1⟩
  else
    let st := drain d.m_max_sched_frames d.frameRateDuration d.frameRateScale
        ⟨b, d.schedSeq, d.m_audio_sync_ts, d.lastSchedFrame, [], []⟩ d.schedFrames
    ⟨{ d with schedFrames := [], schedSeq := st.schedSeq,
              m_audio_sync_ts := st.syncTs, lastSchedFrame := st.last },
     st.scheduled, none, st.dismissed, 0⟩

/-- Expected `ScheduleVideoFrame` calls of a drain: the frames of `q` in order,
at display times `seq * dur`, `(seq + 1) * dur`, .... -/
def slotsFrom (seq dur : Int) : List Frame → List (Frame × Int)
  | [] => []
  | f :: q => (f, seq * dur) :: slotsFrom (seq + 1) dur q

/-- A sequence of `display_decklink_putf` submissions in scheduled mode
(each calls `EnqueueFrame`, decklink.cpp:777): final delegate state and the
number of frames dropped (enqueue returning `false`). -/
def submitAll (d : PlaybackDelegate) : List Frame → PlaybackDelegate × Nat
  | [] => (d, 0)
  | f :: fs =>
      let r := EnqueueFrame d f
      let rest := submitAll r.delegate fs
      (rest.1, (if r.ok then 0 else 1) + rest.2)

/-! ### Audio path -/

/-- `struct audio_vals` (decklink.cpp:126-129); both fields default to
`INT64_MIN`. -/
structure audio_vals where
  saved_sync_ts : Int
  last_sync_ts : Int
deriving DecidableEq

def audio_vals_default : audio_vals := ⟨INT64_MIN, INT64_MIN⟩

/-- Outcome of `PlaybackDelegate::ScheduleAudio`: the new `m_adata` and the
stream time passed to `ScheduleAudioSamples` (`none` = early return, nothing
submitted). -/
structure AudioSchedResult where
  m_adata : audio_vals
  streamTime : Option Int
deriving DecidableEq

/-- `PlaybackDelegate::ScheduleAudio` (decklink.cpp:1593-1624): return if no
anchor was ever saved and the published anchor is `deinit`; re-baseline when
the published anchor is a fresh valid value; subtract `2^32` from the baseline
on 32-bit timestamp wrap-around; submit at stream time
`(timestamp - baseline) * 48000 / 90000` (`bmdAudioSampleRate48kHz = 48000`). -/
def ScheduleAudio (m_adata : audio_vals) (m_audio_sync_ts : Int)
    (frameTimestamp : Int) : AudioSchedResult :=
  if m_adata.saved_sync_ts = INT64_MIN ∧ m_audio_sync_ts = audio_sync_val.deinit then
    ⟨m_adata, none⟩
  else
    let a1 : audio_vals :=
      if m_adata.saved_sync_ts ≠ m_audio_sync_ts ∧
          audio_sync_val.resync < m_audio_sync_ts then
        ⟨m_audio_sync_ts, m_audio_sync_ts⟩
      else m_adata
    let a2 : audio_vals :=
      if frameTimestamp < a1.last_sync_ts then
        { a1 with last_sync_ts := a1.last_sync_ts - 2 ^ 32 }
      else a1
    ⟨a2, some (Int.tdiv ((frameTimestamp - a2.last_sync_ts) * 48000) 90000)⟩

/-! ### Session: getf gate and reconfigure pre-fill -/

/-- The early-return gate of `display_decklink_getf` (decklink.cpp:646-661):
`nullptr` when `!s->initialized`; when `s->audio_reconfigure` is set the code
first applies `display_decklink_reconfigure` (its result modelled by
`reconfOk`) and returns `nullptr` only if that fails.  Returns whether the
function proceeds to produce a frame buffer. -/
def getf_produces_buffer (initialized audioReconfigure reconfOk : Bool) : Bool :=
  if !initialized then false
  else if audioReconfigure && !reconfOk then false
  else true

/-- The loop bound of the scheduled-mode pre-fill in
`display_decklink_reconfigure` (decklink.cpp:1040-1043), as written in the
source: `(m_min_sched_frames + m_min_sched_frames) / 2`. -/
def reconfigure_prefill_count (d : PlaybackDelegate) : Nat :=
  (d.m_min_sched_frames + d.m_min_sched_frames) / 2

/-! ### Buffer pool and reference counts -/

/-- Pool-related state: the reference count of every frame identity
(`atomic<ULONG> ref`, wrapping mod `2^64`) and `buffer_pool.frame_queue`
(front = head). -/
structure PoolState where
  ref : Nat → Nat
  pool : List Nat

/-- `DeckLinkFrame::Release` (decklink.cpp:1759-1767): `--ref` (ULONG, wraps
mod `2^64`); the frame is pushed onto `buffer_pool.frame_queue` exactly when
the post-decrement count is `0`. -/
def FrameRelease (s : PoolState) (f : Nat) : PoolState :=
  let r := (s.ref f + (2 ^ 64 - 1)) % 2 ^ 64
  { ref := fun g => if g = f then r else s.ref g
    pool := if r = 0 then s.pool ++ [f] else s.pool }

/-- `DeckLinkFrame::AddRef` (decklink.cpp:1754-1757): `++ref` mod `2^64`. -/
def FrameAddRef (s : PoolState) (f : Nat) : PoolState :=
  { s with ref := fun g => if g = f then (s.ref g + 1) % 2 ^ 64 else s.ref g }

/-- The pool-scan loop of `display_decklink_getf` (decklink.cpp:673-689):
pop the front of `frame_queue`; on a descriptor mismatch (abstracted by the
predicate `fits`, the comparison of type, width, height, row bytes and
pixel format on lines 679-682) `Release()` it and continue; on a match
`AddRef()` it and stop.  `fuel` bounds the iterations (the C++ loop runs
until the queue empties; under the pool invariant each mismatch shortens the
queue, so `2 * length + 1` fuel is never exhausted). -/
def getfScan (fits : Nat → Bool) : Nat → PoolState → Option Nat × PoolState
  | 0, s => (none, s)
  | fuel + 1, s =>
      match s.pool with
      | [] => (none, s)
      | f :: rest =>
          if fits f then
            (some f, FrameAddRef ⟨s.ref, rest⟩ f)
          else
            getfScan fits fuel (FrameRelease ⟨s.ref, rest⟩ f)

/-- The reference-count events of the display, as performed by the code:
frame construction (`ref = 1`, decklink.cpp:323), `AddRef`/`Release` by a
holder of a reference (putf, the scheduler, the completion callback), and the
pool scan of `display_decklink_getf`. -/
inductive PoolStep (fits : Nat → Bool) : PoolState → PoolState → Prop
  | create (s : PoolState) (f : Nat) (hfree : s.ref f = 0) (hnp : f ∉ s.pool) :
      PoolStep fits s
        { s with ref := fun g => if g = f then 1 else s.ref g }
  | clientAddRef (s : PoolState) (f : Nat) (h : 1 ≤ s.ref f) :
      PoolStep fits s (FrameAddRef s f)
  | clientRelease (s : PoolState) (f : Nat) (h : 1 ≤ s.ref f) :
      PoolStep fits s (FrameRelease s f)
  | acquireScan (s : PoolState) :
      PoolStep fits s (getfScan fits (2 * s.pool.length + 1) s).2

/-- The initial pool state: no frames exist, the free list is empty. -/
def poolInit : PoolState := ⟨fun _ => 0, []⟩

/-- States reachable from `poolInit` by the code's reference-count events. -/
def PoolReachable (fits : Nat → Bool) (s : PoolState) : Prop :=
  Relation.ReflTransGen (PoolStep fits) poolInit s


/-! ### Concrete instances used by the claim witnesses -/

/-- Frames with ids 1..n and invalid (INT64_MIN) timestamps, as used in the
scenario of spec section 8. -/
def scenFrames (n : Nat) : List Frame :=
  (List.range n).map (fun i => ⟨i + 1, INT64_MIN⟩)

/-- A delegate with the default look-ahead bounds (4/6) and 1/50 s slots. -/
def scenDelegate (q : List Frame) (syncTs seq : Int) : PlaybackDelegate :=
  { schedFrames := q, lastSchedFrame := none, schedSeq := seq,
    m_audio_sync_ts := syncTs,
    m_min_sched_frames := DEFAULT_MIN_SCHED_FRAMES,
    m_max_sched_frames := DEFAULT_MAX_SCHED_FRAMES,
    frameRateDuration := 1, frameRateScale := 50 }

/-- The free-list invariant: every pooled frame has reference count 0 and each
frame appears at most once on the free list. -/
def PoolInv (s : PoolState) : Prop :=
  (∀ f ∈ s.pool, s.ref f = 0) ∧ s.pool.Nodup

/-! ### Helper lemmas -/

theorem drain_spec (maxF : Nat) (dur scale : Int) (q : List Frame) :
    ∀ st : DrainState,
      (drain maxF dur scale st q).scheduled
          = st.scheduled ++ slotsFrom st.schedSeq dur (q.take (maxF - st.i)) ∧
      (drain maxF dur scale st q).dismissed
          = st.dismissed ++ q.drop (maxF - st.i) ∧
      (drain maxF dur scale st q).schedSeq
          = st.schedSeq + (↑(min q.length (maxF - st.i)) : Int) := by
  induction q with
  | nil => intro st; simp [drain, slotsFrom]
  | cons f q ih =>
      intro st
      by_cases hmax : maxF < st.i + 1
      · have hk : maxF - st.i = 0 := by omega
        have hk' : maxF - (st.i + 1) = 0 := by omega
        have h3 := ih { st with i := st.i + 1, dismissed := st.dismissed ++ [f] }
        rw [drain, if_pos hmax]
        simp only [hk'] at h3
        simp [h3.1, h3.2.1, h3.2.2, hk, slotsFrom, List.append_assoc]
      · have hk : maxF - st.i = (maxF - (st.i + 1)) + 1 := by omega
        have h3 := ih
          { i := st.i + 1
            schedSeq := st.schedSeq + 1
            syncTs :=
              if st.syncTs ≤ audio_sync_val.resync ∧ f.timestamp ≠ INT64_MIN then
                anchorValue f.timestamp dur st.schedSeq scale
              else st.syncTs
            last := some f
            scheduled := st.scheduled ++ [(f, st.schedSeq * dur)]
            dismissed := st.dismissed }
        rw [drain, if_neg hmax]
        simp only at h3
        rw [hk]
        refine ⟨?_, ?_, ?_⟩
        · rw [h3.1, List.take_succ_cons, slotsFrom, List.append_assoc]
          simp
        · rw [h3.2.1, List.drop_succ_cons]
        · rw [h3.2.2]
          simp only [List.length_cons]
          omega



theorem slotsFrom_map_fst (dur : Int) (q : List Frame) :
    ∀ seq : Int, (slotsFrom seq dur q).map Prod.fst = q := by
  induction q with
  | nil => intro seq; simp [slotsFrom]
  | cons f q ih => intro seq; simp [slotsFrom, ih]

theorem drain_syncTs_frozen (maxF : Nat) (dur scale : Int) (q : List Frame) :
    ∀ st : DrainState, audio_sync_val.resync < st.syncTs →
      (drain maxF dur scale st q).syncTs = st.syncTs := by
  induction q with
  | nil => intro st _; simp [drain]
  | cons f q ih =>
      intro st h
      rw [drain]
      by_cases hmax : maxF < st.i + 1
      · rw [if_pos hmax]; exact ih _ h
      · rw [if_neg hmax]
        have hcond : ¬(st.syncTs ≤ audio_sync_val.resync ∧ f.timestamp ≠ INT64_MIN) := by
          intro hc; exact absurd h (not_lt.mpr hc.1)
        rw [ih _ (by simpa [hcond] using h)]
        simp [hcond]

theorem drain_syncTs_invalid (maxF : Nat) (dur scale : Int) (q : List Frame)
    (hq : ∀ f ∈ q, f.timestamp = INT64_MIN) :
    ∀ st : DrainState, (drain maxF dur scale st q).syncTs = st.syncTs := by
  induction q with
  | nil => intro st; simp [drain]
  | cons f q ih =>
      intro st
      have hf : f.timestamp = INT64_MIN := hq f (by simp)
      have hq' : ∀ g ∈ q, g.timestamp = INT64_MIN := fun g hg => hq g (by simp [hg])
      rw [drain]
      by_cases hmax : maxF < st.i + 1
      · rw [if_pos hmax]; exact ih hq' _
      · rw [if_neg hmax]
        rw [ih hq']
        simp [hf]

theorem resync_lt_anchorValue (t dur seq scale : Int) :
    audio_sync_val.resync < anchorValue t dur seq scale := by
  have h0 : (0 : Int) ≤ anchorValue t dur seq scale :=
    Int.emod_nonneg _ (by norm_num)
  have : audio_sync_val.resync < 0 := by
    simp [audio_sync_val.resync, INT64_MIN]
  omega

theorem drain_syncTs_first (maxF : Nat) (dur scale : Int) (f : Frame) (q : List Frame)
    (st : DrainState) (hok : st.i + 1 ≤ maxF)
    (hsync : st.syncTs ≤ audio_sync_val.resync) (hts : f.timestamp ≠ INT64_MIN) :
    (drain maxF dur scale st (f :: q)).syncTs =
      anchorValue f.timestamp dur st.schedSeq scale := by
  rw [drain, if_neg (by omega)]
  rw [drain_syncTs_frozen]
  · simp [hsync, hts]
  · simp only
    rw [if_pos ⟨hsync, hts⟩]
    exact resync_lt_anchorValue _ _ _ _



theorem submitAll_drops (fs : List Frame) :
    ∀ d : PlaybackDelegate,
      (submitAll d fs).2 = fs.length - (MAX_UNPROC_QUEUE_SIZE - d.schedFrames.length) := by
  induction fs with
  | nil => intro d; simp [submitAll]
  | cons f fs ih =>
      intro d
      by_cases hlen : d.schedFrames.length < MAX_UNPROC_QUEUE_SIZE
      · have h2 := ih { d with schedFrames := d.schedFrames ++ [f] }
        simp only [List.length_append, List.length_singleton] at h2
        simp [submitAll, EnqueueFrame, hlen, h2]
        omega
      · have h2 := ih { d with m_audio_sync_ts := audio_sync_val.resync }
        simp [submitAll, EnqueueFrame, hlen, h2]
        omega

theorem submitAll_sync_stuck (fs : List Frame) :
    ∀ d : PlaybackDelegate, MAX_UNPROC_QUEUE_SIZE ≤ d.schedFrames.length →
      d.m_audio_sync_ts = audio_sync_val.resync →
      (submitAll d fs).1.m_audio_sync_ts = audio_sync_val.resync := by
  induction fs with
  | nil => intro d _ h; simpa [submitAll] using h
  | cons f fs ih =>
      intro d hlen h
      rw [submitAll]
      have hnot : ¬ d.schedFrames.length < MAX_UNPROC_QUEUE_SIZE := by omega
      simp only [EnqueueFrame, if_neg hnot]
      exact ih _ (by simpa using hlen) (by simp)

theorem submitAll_sync_resync (fs : List Frame) :
    ∀ d : PlaybackDelegate,
      MAX_UNPROC_QUEUE_SIZE - d.schedFrames.length < fs.length →
      (submitAll d fs).1.m_audio_sync_ts = audio_sync_val.resync := by
  induction fs with
  | nil =>
      intro d h
      simp only [List.length_nil] at h
      exact absurd h (Nat.not_lt_zero _)
  | cons f fs ih =>
      intro d h
      rw [submitAll]
      by_cases hlen : d.schedFrames.length < MAX_UNPROC_QUEUE_SIZE
      · have h2 : MAX_UNPROC_QUEUE_SIZE -
            ({ d with schedFrames := d.schedFrames ++ [f] } : PlaybackDelegate).schedFrames.length
            < fs.length := by
          simp only [List.length_append, List.length_singleton, List.length_cons] at h ⊢
          omega
        simp only [EnqueueFrame, if_pos hlen]
        exact ih _ h2
      · simp only [EnqueueFrame, if_neg hlen]
        exact submitAll_sync_stuck fs _ (by simp only []; omega) (by simp)





theorem getfScan_inv (fits : Nat → Bool) (fuel : Nat) :
    ∀ s : PoolState, PoolInv s →
      PoolInv (getfScan fits fuel s).2 ∧
      (∀ f s2, getfScan fits fuel s = (some f, s2) → s2.ref f = 1) := by
  induction fuel with
  | zero =>
      intro s hs
      refine ⟨hs, ?_⟩
      intro f s2 h
      simp [getfScan] at h
  | succ fuel ih =>
      intro s hs
      rw [getfScan]
      cases hp : s.pool with
      | nil => exact ⟨by simpa [hp] using hs, by intro f s2 h; simp at h⟩
      | cons g rest =>
          have hg : s.ref g = 0 := hs.1 g (by rw [hp]; simp)
          have hrest : ∀ f ∈ rest, s.ref f = 0 := by
            intro f hf; exact hs.1 f (by rw [hp]; simp [hf])
          have hnd : rest.Nodup ∧ g ∉ rest := by
            have := hs.2; rw [hp] at this
            exact ⟨this.of_cons, (List.nodup_cons.mp this).1⟩
          dsimp only
          by_cases hfit : fits g
          · rw [if_pos hfit]
            constructor
            · constructor
              · intro f hf
                simp only [FrameAddRef] at hf ⊢
                have : f ∈ rest := hf
                rw [if_neg (by rintro rfl; exact hnd.2 this)]
                exact hrest f this
              · simpa [FrameAddRef] using hnd.1
            · intro f s2 h
              simp only [Prod.mk.injEq, Option.some.injEq] at h
              obtain ⟨rfl, rfl⟩ := h
              simp [FrameAddRef, hg]
          · rw [if_neg hfit]
            have hrel : PoolInv (FrameRelease ⟨s.ref, rest⟩ g) := by
              have hr : (s.ref g + (2 ^ 64 - 1)) % 2 ^ 64 = 2 ^ 64 - 1 := by
                rw [hg]; norm_num
              constructor
              · intro f hf
                simp only [FrameRelease, hr] at hf ⊢
                rw [if_neg (by norm_num)] at hf
                have : f ∈ rest := hf
                rw [if_neg (by rintro rfl; exact hnd.2 this)]
                exact hrest f this
              · simp only [FrameRelease, hr]
                rw [if_neg (by norm_num)]
                exact hnd.1
            exact ih _ hrel



theorem poolStep_inv (fits : Nat → Bool) (s s2 : PoolState)
    (hs : PoolInv s) (hstep : PoolStep fits s s2) : PoolInv s2 := by
  cases hstep with
  | create f hfree hnp =>
      constructor
      · intro g hg
        dsimp only at hg ⊢
        rw [if_neg (by rintro rfl; exact hnp hg)]
        exact hs.1 g hg
      · exact hs.2
  | clientAddRef f h =>
      have hnp : f ∉ s.pool := fun hin => by
        have := hs.1 f hin; omega
      constructor
      · intro g hg
        simp only [FrameAddRef] at hg ⊢
        rw [if_neg (by rintro rfl; exact hnp hg)]
        exact hs.1 g hg
      · simpa [FrameAddRef] using hs.2
  | clientRelease f h =>
      have hnp : f ∉ s.pool := fun hin => by
        have := hs.1 f hin; omega
      by_cases hz : (s.ref f + (2 ^ 64 - 1)) % 2 ^ 64 = 0
      · constructor
        · intro g hg
          simp only [FrameRelease, hz, if_pos rfl] at hg ⊢
          rcases List.mem_append.mp hg with hgs | hgf
          · rw [if_neg (by rintro rfl; exact hnp hgs)]
            exact hs.1 g hgs
          · have : g = f := by simpa using hgf
            subst this
            simp [hz]
        · simp only [FrameRelease, hz, if_pos rfl]
          exact List.Nodup.append hs.2 (List.nodup_singleton f)
            (by simpa [List.disjoint_singleton] using hnp)
      · constructor
        · intro g hg
          simp only [FrameRelease, if_neg hz] at hg ⊢
          rw [if_neg (by rintro rfl; exact hnp hg)]
          exact hs.1 g hg
        · simp only [FrameRelease]
          rw [if_neg hz]
          exact hs.2
  | acquireScan =>
      exact (getfScan_inv fits _ s hs).1

theorem poolReachable_inv (fits : Nat → Bool) (s : PoolState)
    (h : PoolReachable fits s) : PoolInv s := by
  induction h with
  | refl => exact ⟨by intro f hf; simp [poolInit] at hf, by simp [poolInit]⟩
  | tail hr hstep ih => exact poolStep_inv fits _ _ ih hstep







/-- C1, counterexample: draining the section-8 scenario (8 queued frames,
device count 0, maxLookahead 6) dequeues all 8 frames but advances `schedSeq`
by only 6: `sequence` is not incremented for the 2 dismissed frames, so the
claim "sequence is incremented for each dequeued frame" fails. -/
theorem C1_seq_increment_counterexample :
    (ScheduleNextFrame (scenDelegate (scenFrames 8) audio_sync_val.deinit 0) 0).delegate.schedFrames
        = [] ∧
    (scenFrames 8).length = 8 ∧
    (ScheduleNextFrame (scenDelegate (scenFrames 8) audio_sync_val.deinit 0) 0).delegate.schedSeq
        = 6 ∧
    (6 : Int) ≠ 0 + 8 := by decide

/-- C1 (amended): a drain processes the queue in FIFO submit order. -/
theorem C1_drain_fifo_window (d : PlaybackDelegate) (b : Nat)
    (h : d.schedFrames ≠ []) :
    (ScheduleNextFrame d b).scheduled
        = slotsFrom d.schedSeq d.frameRateDuration
            (d.schedFrames.take (d.m_max_sched_frames - b)) ∧
    (ScheduleNextFrame d b).dismissed
        = d.schedFrames.drop (d.m_max_sched_frames - b) ∧
    (ScheduleNextFrame d b).delegate.schedSeq
        = d.schedSeq + (↑(min d.schedFrames.length (d.m_max_sched_frames - b)) : Int) ∧
    (ScheduleNextFrame d b).delegate.schedFrames = [] ∧
    (ScheduleNextFrame d b).missing = 0 := by
  have hne : d.schedFrames.isEmpty = false := by simp [List.isEmpty_eq_false, h]
  have hd := drain_spec d.m_max_sched_frames d.frameRateDuration d.frameRateScale
      d.schedFrames ⟨b, d.schedSeq, d.m_audio_sync_ts, d.lastSchedFrame, [], []⟩
  simp only [ScheduleNextFrame, hne, Bool.false_eq_true, if_false]
  dsimp only at hd ⊢
  refine ⟨?_, ?_, ?_, ?_, ?_⟩
  · rw [hd.1]; simp
  · rw [hd.2.1]; simp
  · rw [hd.2.2]
  · trivial
  · trivial

/-- C1 witness: the scenario instance. -/
theorem C1_drain_fifo_window_witness :
    (ScheduleNextFrame (scenDelegate (scenFrames 8) audio_sync_val.deinit 0) 0).scheduled
        = [(⟨1, INT64_MIN⟩, 0), (⟨2, INT64_MIN⟩, 1), (⟨3, INT64_MIN⟩, 2),
           (⟨4, INT64_MIN⟩, 3), (⟨5, INT64_MIN⟩, 4), (⟨6, INT64_MIN⟩, 5)] ∧
    (ScheduleNextFrame (scenDelegate (scenFrames 8) audio_sync_val.deinit 0) 0).dismissed
        = [⟨7, INT64_MIN⟩, ⟨8, INT64_MIN⟩] ∧
    (ScheduleNextFrame (scenDelegate (scenFrames 8) audio_sync_val.deinit 0) 0).delegate.schedFrames
        = [] := by
  have h := C1_drain_fifo_window (scenDelegate (scenFrames 8) audio_sync_val.deinit 0) 0
      (by decide)
  exact ⟨by rw [h.1]; decide, by rw [h.2.1]; decide, h.2.2.2.1⟩

/-- C2: EnqueueFrame succeeds iff fewer than MAX_UNPROC_QUEUE_SIZE frames are
queued; on overflow the frame is released, the sync state goes to resync, the
queue is unchanged; submitting maxQueueSize+1 frames without a drain drops
exactly 1 and leaves the corrector pending-resync. -/
theorem C2_enqueue_overflow (d : PlaybackDelegate) (f : Frame) :
    ((EnqueueFrame d f).ok = true ↔ d.schedFrames.length < MAX_UNPROC_QUEUE_SIZE) ∧
    (d.schedFrames.length < MAX_UNPROC_QUEUE_SIZE →
        (EnqueueFrame d f).delegate = { d with schedFrames := d.schedFrames ++ [f] } ∧
        (EnqueueFrame d f).released = none) ∧
    (MAX_UNPROC_QUEUE_SIZE ≤ d.schedFrames.length →
        (EnqueueFrame d f).delegate = { d with m_audio_sync_ts := audio_sync_val.resync } ∧
        (EnqueueFrame d f).released = some f ∧
        (EnqueueFrame d f).ok = false) ∧
    (∀ fs : List Frame, d.schedFrames = [] → fs.length = MAX_UNPROC_QUEUE_SIZE + 1 →
        (submitAll d fs).2 = 1 ∧
        (submitAll d fs).1.m_audio_sync_ts = audio_sync_val.resync) := by
  refine ⟨?_, ?_, ?_, ?_⟩
  · by_cases hlen : d.schedFrames.length < MAX_UNPROC_QUEUE_SIZE <;>
      simp [EnqueueFrame, hlen]
  · intro hlen; simp [EnqueueFrame, hlen]
  · intro hlen; simp [EnqueueFrame, Nat.not_lt.mpr hlen]
  · intro fs h0 hlen
    constructor
    · rw [submitAll_drops, hlen, h0]
      simp [MAX_UNPROC_QUEUE_SIZE]
    · exact submitAll_sync_resync fs d (by rw [h0, hlen]; simp [MAX_UNPROC_QUEUE_SIZE])

/-- C2 witness: concrete overflow. -/
theorem C2_enqueue_overflow_witness :
    (EnqueueFrame (scenDelegate (scenFrames 10) 7 0) ⟨11, INT64_MIN⟩).ok = false ∧
    (EnqueueFrame (scenDelegate (scenFrames 10) 7 0) ⟨11, INT64_MIN⟩).released
        = some ⟨11, INT64_MIN⟩ ∧
    (submitAll (scenDelegate [] 7 0) (scenFrames 11)).2 = 1 ∧
    (submitAll (scenDelegate [] 7 0) (scenFrames 11)).1.m_audio_sync_ts
        = audio_sync_val.resync := by
  have h1 := C2_enqueue_overflow (scenDelegate (scenFrames 10) 7 0) ⟨11, INT64_MIN⟩
  have h2 := C2_enqueue_overflow (scenDelegate [] 7 0) ⟨11, INT64_MIN⟩
  have hov := h1.2.2.1 (by decide)
  have hsc := h2.2.2.2 (scenFrames 11) (by decide) (by decide)
  exact ⟨hov.2.2, hov.2.1, hsc.1, hsc.2⟩

/-- C3: empty-queue ScheduleNextFrame. -/
theorem C3_empty_queue_underrun (d : PlaybackDelegate) (b : Nat)
    (h : d.schedFrames = []) :
    (d.m_min_sched_frames ≤ b → ScheduleNextFrame d b = ⟨d, [], none, [], 0⟩) ∧
    (b < d.m_min_sched_frames →
        (ScheduleNextFrame d b).delegate
            = { d with m_audio_sync_ts := audio_sync_val.resync,
                       schedSeq := d.schedSeq + 1 } ∧
        (ScheduleNextFrame d b).resubmitted
            = some (d.lastSchedFrame, d.schedSeq * d.frameRateDuration) ∧
        (ScheduleNextFrame d b).scheduled = [] ∧
        (ScheduleNextFrame d b).dismissed = [] ∧
        (ScheduleNextFrame d b).missing = 1) := by
  have hemp : d.schedFrames.isEmpty = true := by simp [h]
  constructor
  · intro hb; simp [ScheduleNextFrame, hemp, hb]
  · intro hb
    have hnb : ¬ d.m_min_sched_frames ≤ b := by omega
    simp [ScheduleNextFrame, hemp, hnb]

/-- C3 witness. -/
theorem C3_empty_queue_underrun_witness :
    (ScheduleNextFrame (scenDelegate [] audio_sync_val.deinit 3) 2).delegate.schedSeq = 4 ∧
    (ScheduleNextFrame (scenDelegate [] audio_sync_val.deinit 3) 2).delegate.m_audio_sync_ts
        = audio_sync_val.resync ∧
    (ScheduleNextFrame (scenDelegate [] audio_sync_val.deinit 3) 2).resubmitted
        = some (none, 3) ∧
    (ScheduleNextFrame (scenDelegate [] audio_sync_val.deinit 3) 2).missing = 1 ∧
    ScheduleNextFrame (scenDelegate [] audio_sync_val.deinit 3) 4
        = ⟨scenDelegate [] audio_sync_val.deinit 3, [], none, [], 0⟩ := by
  have h := C3_empty_queue_underrun (scenDelegate [] audio_sync_val.deinit 3) 2 rfl
  have h4 := C3_empty_queue_underrun (scenDelegate [] audio_sync_val.deinit 3) 4 rfl
  have hu := h.2 (by decide)
  exact ⟨by rw [hu.1]; decide, by rw [hu.1], by rw [hu.2.1]; decide,
    hu.2.2.2.2, h4.1 (by decide)⟩

/-- C4, counterexample: on enqueue overflow the dropped frame is the newly
submitted (newest) frame, while the oldest queued frame stays: drops are not
of the oldest frames. -/
theorem C4_oldest_drop_counterexample :
    (EnqueueFrame (scenDelegate (scenFrames 10) 7 0) ⟨11, INT64_MIN⟩).released
        = some ⟨11, INT64_MIN⟩ ∧
    (scenDelegate (scenFrames 10) 7 0).schedFrames.head? = some ⟨1, INT64_MIN⟩ ∧
    (⟨11, INT64_MIN⟩ : Frame) ≠ ⟨1, INT64_MIN⟩ ∧
    (EnqueueFrame (scenDelegate (scenFrames 10) 7 0) ⟨11, INT64_MIN⟩).delegate.schedFrames
        = (scenDelegate (scenFrames 10) 7 0).schedFrames := by decide

/-- C4 (amended): order is preserved; drops are the newest excess frames. -/
theorem C4_order_preserving_drops :
    (∀ (d : PlaybackDelegate) (b : Nat), d.schedFrames ≠ [] →
        ((ScheduleNextFrame d b).scheduled.map Prod.fst)
            = d.schedFrames.take (d.m_max_sched_frames - b) ∧
        (ScheduleNextFrame d b).dismissed
            = d.schedFrames.drop (d.m_max_sched_frames - b) ∧
        ((ScheduleNextFrame d b).scheduled.map Prod.fst)
            ++ (ScheduleNextFrame d b).dismissed = d.schedFrames) ∧
    (∀ (d : PlaybackDelegate) (f : Frame), (EnqueueFrame d f).ok = true →
        (EnqueueFrame d f).delegate.schedFrames = d.schedFrames ++ [f]) ∧
    (∀ (d : PlaybackDelegate) (f : Frame), (EnqueueFrame d f).ok = false →
        (EnqueueFrame d f).released = some f ∧
        (EnqueueFrame d f).delegate.schedFrames = d.schedFrames) := by
  refine ⟨?_, ?_, ?_⟩
  · intro d b h
    have hne : d.schedFrames.isEmpty = false := by simp [List.isEmpty_eq_false, h]
    have hd := drain_spec d.m_max_sched_frames d.frameRateDuration d.frameRateScale
        d.schedFrames ⟨b, d.schedSeq, d.m_audio_sync_ts, d.lastSchedFrame, [], []⟩
    simp only [ScheduleNextFrame, hne, Bool.false_eq_true, if_false]
    dsimp only at hd ⊢
    have h1 : ((drain d.m_max_sched_frames d.frameRateDuration d.frameRateScale
        ⟨b, d.schedSeq, d.m_audio_sync_ts, d.lastSchedFrame, [], []⟩
        d.schedFrames).scheduled.map Prod.fst)
        = d.schedFrames.take (d.m_max_sched_frames - b) := by
      rw [hd.1]; simp [slotsFrom_map_fst]
    have h2 := hd.2.1
    refine ⟨h1, by rw [h2]; simp, ?_⟩
    rw [h1, h2]
    simp [List.take_append_drop]
  · intro d f hok
    by_cases hlen : d.schedFrames.length < MAX_UNPROC_QUEUE_SIZE
    · simp [EnqueueFrame, hlen]
    · simp [EnqueueFrame, hlen] at hok
  · intro d f hok
    by_cases hlen : d.schedFrames.length < MAX_UNPROC_QUEUE_SIZE
    · simp [EnqueueFrame, hlen] at hok
    · simp [EnqueueFrame, hlen]

/-- C4 witness. -/
theorem C4_order_preserving_drops_witness :
    ((ScheduleNextFrame (scenDelegate (scenFrames 7) 7 0) 2).scheduled.map Prod.fst)
        ++ (ScheduleNextFrame (scenDelegate (scenFrames 7) 7 0) 2).dismissed
        = scenFrames 7 ∧
    (EnqueueFrame (scenDelegate (scenFrames 3) 7 0) ⟨4, INT64_MIN⟩).delegate.schedFrames
        = scenFrames 3 ++ [⟨4, INT64_MIN⟩] := by
  have h1 := (C4_order_preserving_drops.1 (scenDelegate (scenFrames 7) 7 0) 2 (by decide)).2.2
  have h2 := C4_order_preserving_drops.2.1 (scenDelegate (scenFrames 3) 7 0) ⟨4, INT64_MIN⟩
      (by decide)
  exact ⟨h1, h2⟩



/-- C5, counterexample: anchor published with uint32 truncation. -/
theorem C5_anchor_value_counterexample :
    (ScheduleNextFrame (scenDelegate [⟨1, 0⟩] audio_sync_val.deinit 1) 0).delegate.m_audio_sync_ts
        = 4294965496 ∧
    (0 : Int) - 1 * 1 * (90000 / 50) = -1800 ∧
    (4294965496 : Int) ≠ -1800 := by decide

/-- C5 (amended): publication condition and truncated value. -/
theorem C5_anchor_publication (d : PlaybackDelegate) (b : Nat)
    (h : d.schedFrames ≠ []) :
    (audio_sync_val.resync < d.m_audio_sync_ts →
        (ScheduleNextFrame d b).delegate.m_audio_sync_ts = d.m_audio_sync_ts) ∧
    ((∀ f ∈ d.schedFrames, f.timestamp = INT64_MIN) →
        (ScheduleNextFrame d b).delegate.m_audio_sync_ts = d.m_audio_sync_ts) ∧
    (∀ f q, d.schedFrames = f :: q →
        d.m_audio_sync_ts ≤ audio_sync_val.resync →
        f.timestamp ≠ INT64_MIN → b + 1 ≤ d.m_max_sched_frames →
        (ScheduleNextFrame d b).delegate.m_audio_sync_ts
            = anchorValue f.timestamp d.frameRateDuration d.schedSeq d.frameRateScale) ∧
    (∀ t u v w : Int, 0 ≤ anchorValue t u v w ∧ anchorValue t u v w < 2 ^ 32) := by
  have hne : d.schedFrames.isEmpty = false := by simp [List.isEmpty_eq_false, h]
  refine ⟨?_, ?_, ?_, ?_⟩
  · intro hgt
    simp only [ScheduleNextFrame, hne, Bool.false_eq_true, if_false]
    exact drain_syncTs_frozen _ _ _ _ _ hgt
  · intro hinv
    simp only [ScheduleNextFrame, hne, Bool.false_eq_true, if_false]
    exact drain_syncTs_invalid _ _ _ _ hinv _
  · intro f q hq hsync hts hb
    simp only [ScheduleNextFrame, hne, Bool.false_eq_true, if_false]
    rw [hq]
    exact drain_syncTs_first _ _ _ f q ⟨b, d.schedSeq, d.m_audio_sync_ts,
      d.lastSchedFrame, [], []⟩ hb hsync hts
  · intro t u v w
    refine ⟨Int.emod_nonneg _ (by norm_num), ?_⟩
    have := Int.emod_lt_of_pos (t - Int.tdiv (u * v * 90000) w) (by norm_num : (0:Int) < 2 ^ 32)
    simpa [anchorValue, toUInt32] using this

/-- C5 witness. -/
theorem C5_anchor_publication_witness :
    (ScheduleNextFrame (scenDelegate [⟨1, 100⟩] audio_sync_val.deinit 2) 0).delegate.m_audio_sync_ts
        = 4294963796 ∧
    anchorValue 100 1 2 50 = 4294963796 := by
  have h := (C5_anchor_publication (scenDelegate [⟨1, 100⟩] audio_sync_val.deinit 2) 0
      (by decide)).2.2.1 ⟨1, 100⟩ [] rfl (by decide) (by decide) (by decide)
  exact ⟨by rw [h]; decide, by decide⟩

/-- C6: wrap-around correction in ScheduleAudio. -/
theorem C6_wraparound (m_adata : audio_vals) (syncTs frameTs : Int)
    (hsaved : m_adata.saved_sync_ts = syncTs)
    (hinit : ¬(m_adata.saved_sync_ts = INT64_MIN ∧ syncTs = audio_sync_val.deinit))
    (hwrap : frameTs < m_adata.last_sync_ts) :
    (ScheduleAudio m_adata syncTs frameTs).m_adata.last_sync_ts
        = m_adata.last_sync_ts - 2 ^ 32 ∧
    (ScheduleAudio m_adata syncTs frameTs).m_adata.saved_sync_ts
        = m_adata.saved_sync_ts ∧
    (ScheduleAudio m_adata syncTs frameTs).streamTime
        = some (Int.tdiv ((frameTs - (m_adata.last_sync_ts - 2 ^ 32)) * 48000) 90000) ∧
    (0 ≤ frameTs → m_adata.last_sync_ts < 2 ^ 32 →
        0 ≤ frameTs - (m_adata.last_sync_ts - 2 ^ 32)) := by
  have hnores : ¬(m_adata.saved_sync_ts ≠ syncTs ∧ audio_sync_val.resync < syncTs) := by
    intro hc; exact hc.1 hsaved
  simp only [ScheduleAudio, if_neg hinit, if_neg hnores, if_pos hwrap]
  refine ⟨?_, ?_, ?_, ?_⟩ <;> try trivial
  intro h1 h2
  omega

/-- C6 witness: anchor near the top of the 32-bit range, timestamp just past
the wrap. -/
theorem C6_wraparound_witness :
    (ScheduleAudio ⟨4294966296, 4294966296⟩ 4294966296 100).m_adata.last_sync_ts
        = -1000 ∧
    (ScheduleAudio ⟨4294966296, 4294966296⟩ 4294966296 100).streamTime = some 586 ∧
    (0 : Int) ≤ 100 - ((4294966296 : Int) - 2 ^ 32) := by
  have h := C6_wraparound ⟨4294966296, 4294966296⟩ 4294966296 100 rfl
      (by decide) (by decide)
  exact ⟨by rw [h.1]; decide, by rw [h.2.2.1]; decide,
    h.2.2.2 (by decide) (by decide)⟩

/-- C7 (code bug): the pre-fill count is (min+min)/2 = min, not the average
of min and max. -/
theorem C7_prefill_bug :
    reconfigure_prefill_count (scenDelegate [] audio_sync_val.deinit 0) = 4 ∧
    (DEFAULT_MIN_SCHED_FRAMES + DEFAULT_MAX_SCHED_FRAMES) / 2 = 5 ∧
    reconfigure_prefill_count (scenDelegate [] audio_sync_val.deinit 0)
        ≠ (DEFAULT_MIN_SCHED_FRAMES + DEFAULT_MAX_SCHED_FRAMES) / 2 := by decide

/-- C8, counterexample: a pending audio reconfiguration that applies
successfully still yields a buffer. -/
theorem C8_pending_reconfigure_counterexample :
    ¬ ((true = false ∨ true = true) → getf_produces_buffer true true true = false) := by
  decide

/-- C8 (amended): getf fails iff uninitialized or pending reconfiguration
fails to apply. -/
theorem C8_getf_failure (initialized audioReconfigure reconfOk : Bool) :
    getf_produces_buffer initialized audioReconfigure reconfOk = false ↔
      (initialized = false ∨ (audioReconfigure = true ∧ reconfOk = false)) := by
  cases initialized <;> cases audioReconfigure <;> cases reconfOk <;> decide

/-- C9: with no saved anchor and a deinit published anchor, ScheduleAudio
discards the audio and changes nothing. -/
theorem C9_audio_uninitialized_discard (m_adata : audio_vals) (syncTs frameTs : Int)
    (h1 : m_adata.saved_sync_ts = INT64_MIN) (h2 : syncTs = audio_sync_val.deinit) :
    ScheduleAudio m_adata syncTs frameTs = ⟨m_adata, none⟩ := by
  simp [ScheduleAudio, h1, h2]

/-- C9 witness. -/
theorem C9_audio_uninitialized_discard_witness :
    ScheduleAudio audio_vals_default audio_sync_val.deinit 12345
        = ⟨audio_vals_default, none⟩ :=
  C9_audio_uninitialized_discard audio_vals_default audio_sync_val.deinit 12345
    rfl rfl

/-- C10: every pooled frame has reference count 0, frames appear on the free
list at most once, and an acquisition yields reference count exactly 1. -/
theorem C10_pool_refcount (fits : Nat → Bool) (s : PoolState)
    (h : PoolReachable fits s) :
    (∀ f ∈ s.pool, s.ref f = 0) ∧ s.pool.Nodup ∧
    (∀ f s2 fuel, getfScan fits fuel s = (some f, s2) → s2.ref f = 1) ∧
    (∀ f, ({ s with ref := fun g => if g = f then 1 else s.ref g } : PoolState).ref f
        = 1) := by
  have hi := poolReachable_inv fits s h
  exact ⟨hi.1, hi.2,
    fun f s2 fuel heq => (getfScan_inv fits fuel s hi).2 f s2 heq,
    fun f => by simp⟩

/-- C10 witness: create a frame, release it (count 1 → 0, pushed), and
re-acquire it (count 0 → 1). -/
theorem C10_pool_refcount_witness :
    (∀ f ∈ (FrameRelease { ref := fun g => if g = 7 then 1 else 0, pool := [] } 7).pool,
        (FrameRelease { ref := fun g => if g = 7 then 1 else 0, pool := [] } 7).ref f = 0) ∧
    ((getfScan (fun _ => true) 5
        (FrameRelease { ref := fun g => if g = 7 then 1 else 0, pool := [] } 7)).1
      = some 7) ∧
    ((getfScan (fun _ => true) 5
        (FrameRelease { ref := fun g => if g = 7 then 1 else 0, pool := [] } 7)).2).ref 7
      = 1 := by
  have h1 : PoolStep (fun _ => true) poolInit
      { ref := fun g => if g = 7 then 1 else 0, pool := [] } :=
    PoolStep.create poolInit 7 rfl (by simp [poolInit])
  have h2 : PoolStep (fun _ => true)
      { ref := fun g => if g = 7 then 1 else 0, pool := [] }
      (FrameRelease { ref := fun g => if g = 7 then 1 else 0, pool := [] } 7) :=
    PoolStep.clientRelease { ref := fun g => if g = 7 then 1 else 0, pool := [] } 7 (by decide)
  have hre : PoolReachable (fun _ => true)
      (FrameRelease { ref := fun g => if g = 7 then 1 else 0, pool := [] } 7) :=
    Relation.ReflTransGen.tail (Relation.ReflTransGen.single h1) h2
  have h := C10_pool_refcount (fun _ => true) _ hre
  exact ⟨h.1, rfl, h.2.2.1 7 _ 5 rfl⟩


end Decklink
